import Mathlib

/-! # Verification of `container/main.go`

A shallow embedding of the HTTP service in `container/main.go`: the two request
handlers `handler` and `adminUpdateHandler` and the routing table that `main`
registers on its `http.ServeMux`.

The program's own code is embedded function by function.  The Go standard
library it calls (`os`, `io`, `fmt`, `net/http`) is modelled by small
executable definitions that follow the documented behaviour of each call; each
carries a comment that says what it stands for.

State is passed explicitly.  A `World` holds what the handlers can observe or
change outside the response: the process environment and the file system,
together with the I/O conditions that decide whether a read or a write of a
path fails.  A `ResponseWriter` holds what a handler has produced so far; a
`Response` is what the server sends from it, with the header values as they go
out on the connection.
-/

namespace ContainerPool

/-! ## Bytes and errors -/

/-- A Go byte slice (`[]byte`), also the raw bytes of a Go `string`. -/
abbrev Bytes := List UInt8

/-- The bytes of a Go string literal, as UTF-8. -/
def bytesOf (s : String) : Bytes := s.toUTF8.data.toList

/-- A Go `error` value as returned by the `os` and `io` calls of the program. -/
inductive GoError where
  | notExist
  | permission
  | other (msg : String)
  deriving DecidableEq, Repr

/-! ## The world outside the response -/

/-- How a call of `os.WriteFile` on a path fails, following the three steps of
`os.WriteFile`: `OpenFile` with `O_WRONLY|O_CREATE|O_TRUNC`, `Write`, `Close`. -/
inductive WriteFault where
  /-- The call of `OpenFile` fails: the file is neither created nor truncated. -/
  | atOpen (e : GoError)
  /-- The file is created or truncated, then `Write` fails after `n` bytes. -/
  | atWrite (n : Nat) (e : GoError)
  /-- All bytes are written, then `Close` reports an error. -/
  | atClose (e : GoError)
  deriving DecidableEq, Repr

/-- The state outside the response.
* `env`: the process environment, `none` for an unset variable;
* `files`: the content of each path, `none` for a path that does not exist;
* `readFault`: the condition (permission, device error, ...) that makes a read
  of a path fail, `none` when reads of the path go through;
* `writeFault`: likewise for `os.WriteFile` on a path. -/
structure World where
  env : String → Option String
  files : String → Option Bytes
  readFault : String → Option GoError
  writeFault : String → Option WriteFault

/-- The world with the content of `name` replaced by `data`. -/
def World.store (σ : World) (name : String) (data : Bytes) : World :=
  { σ with files := fun p => if p = name then some data else σ.files p }

/-- Go `os.Getenv`: the value of the variable, the empty string when it is unset. -/
def os.Getenv (σ : World) (key : String) : String :=
  match σ.env key with
  | some v => v
  | none => ""

/-- Go `os.ReadFile`: the whole content of the file, or an error; the world is not
changed. -/
def os.ReadFile (σ : World) (name : String) : Except GoError Bytes :=
  match σ.readFault name with
  | some e => .error e
  | none =>
    match σ.files name with
    | none => .error GoError.notExist
    | some content => .ok content

/-- Go `os.WriteFile`: creates the file or truncates it, writes `data`, closes it.
Returns the error (`none` for Go `nil`) and the world after the call.  A
failure after the open step leaves the file truncated to what was written. -/
def os.WriteFile (σ : World) (name : String) (data : Bytes) (_perm : Nat) :
    Option GoError × World :=
  match σ.writeFault name with
  | some (WriteFault.atOpen e) => (some e, σ)
  | some (WriteFault.atWrite n e) => (some e, σ.store name (data.take n))
  | some (WriteFault.atClose e) => (some e, σ.store name data)
  | none => (none, σ.store name data)

/-! ## Requests -/

/-- A request body as a stream: the bytes that arrive, then either end of
stream (`failure = none`) or a read error. -/
structure Body where
  data : Bytes
  failure : Option GoError

/-- The part of `*http.Request` the program and its mux look at.  `path` is the
escaped URL path (`r.URL.EscapedPath()`), which the mux cleans as it is and
then matches segment by segment, decoding each segment. -/
structure Request where
  method : String
  path : String
  Body : Body

/-- Go `io.ReadAll`: reads until end of stream or error and returns what was read
and the error; end of stream is not an error. -/
def io.ReadAll (b : Body) : Bytes × Option GoError := (b.data, b.failure)

/-! ## Headers -/

/-- Tells whether a code point is a valid header field byte (an RFC 7230 token
character), as `textproto` tests it. -/
def validHeaderFieldByte (c : Char) : Bool :=
  c.isAlphanum ||
    [33, 35, 36, 37, 38, 39, 42, 43, 45, 46, 94, 95, 96, 124, 126].contains c.toNat

/-- The capitalisation loop of `textproto.CanonicalMIMEHeaderKey`: upper case
for the first letter and for a letter after a dash, lower case elsewhere. -/
def canonicalLoop : Bool → List Char → List Char
  | _, [] => []
  | upper, c :: cs =>
    let c1 := if upper then c.toUpper else c.toLower
    c1 :: canonicalLoop (c1 = '-') cs

/-- Go `textproto.CanonicalMIMEHeaderKey`: a key with a byte that is not a token
character is returned unchanged, any other key is capitalised. -/
def CanonicalMIMEHeaderKey (s : String) : String :=
  if s.data.all validHeaderFieldByte then String.mk (canonicalLoop true s.data) else s

/-- Go `http.Header`: a map from canonical keys to value lists, kept as an
association list with at most one entry per key. -/
abbrev Header := List (String × List String)

/-- Go `Header.Del`: removes the entry of the key. -/
def Header.Del (h : Header) (key : String) : Header :=
  h.filter (fun kv => kv.1 ≠ CanonicalMIMEHeaderKey key)

/-- Go `Header.Set`: replaces the values of the key by the single value given. -/
def Header.Set (h : Header) (key value : String) : Header :=
  (CanonicalMIMEHeaderKey key, [value]) :: Header.Del h key

/-- Go `Header.Values`: all values of the key, the empty list when it is absent. -/
def Header.Values (h : Header) (key : String) : List String :=
  match h.lookup (CanonicalMIMEHeaderKey key) with
  | some vs => vs
  | none => []

/-- Go `Header.Get`: the first value of the key, the empty string when it is
absent. -/
def Header.Get (h : Header) (key : String) : String :=
  match Header.Values h key with
  | v :: _ => v
  | [] => ""

/-! ## The response writer -/

/-- The state of an `http.ResponseWriter`.
* `header`: the map `w.Header()` returns, which the handler mutates;
* `wroteHeader`: whether the status line and headers have been sent;
* `status`, `sent`: the status code and the headers that were sent;
* `body`: the bytes written to the body so far.
Headers the server adds by itself (`Date`, `Content-Length`, a sniffed
`Content-Type` when the handler set none) are not part of the state. -/
structure ResponseWriter where
  header : Header
  wroteHeader : Bool
  status : Nat
  sent : Header
  body : Bytes

/-- The writer a handler is called with: nothing set, nothing sent. -/
def ResponseWriter.fresh : ResponseWriter :=
  { header := [], wroteHeader := false, status := 0, sent := [], body := [] }

/-- The call `w.Header().Set(key, value)`. -/
def ResponseWriter.SetHeader (w : ResponseWriter) (key value : String) : ResponseWriter :=
  { w with header := Header.Set w.header key value }

/-- The call `w.Header().Del(key)`. -/
def ResponseWriter.DelHeader (w : ResponseWriter) (key : String) : ResponseWriter :=
  { w with header := Header.Del w.header key }

/-- The call `w.WriteHeader(code)`: sends the status and the headers as they are now; a
second call is ignored. -/
def ResponseWriter.WriteHeader (w : ResponseWriter) (code : Nat) : ResponseWriter :=
  if w.wroteHeader then w
  else { w with wroteHeader := true, status := code, sent := w.header }

/-- The call `w.Write(data)`: sends status 200 first when no status was sent yet, then
appends the data to the body. -/
def ResponseWriter.Write (w : ResponseWriter) (data : Bytes) : ResponseWriter :=
  let w1 := if w.wroteHeader then w else w.WriteHeader 200
  { w1 with body := w1.body ++ data }

/-- The call `fmt.Fprintf(w, format)` without arguments, for a format without a verb: the
format itself is written. -/
def fmt.Fprintf (w : ResponseWriter) (format : String) : ResponseWriter :=
  w.Write (bytesOf format)

/-- The call `fmt.Fprintln(w, s)`: the string and a newline are written. -/
def fmt.Fprintln (w : ResponseWriter) (s : String) : ResponseWriter :=
  w.Write (bytesOf s ++ [10])

/-- The constant `http.StatusOK`. -/
def http.StatusOK : Nat := 200

/-- The constant `http.StatusInternalServerError`. -/
def http.StatusInternalServerError : Nat := 500

/-- Go `http.Error`: replies with the code and the message as plain text, followed
by a newline. -/
def http.Error (w : ResponseWriter) (error : String) (code : Nat) : ResponseWriter :=
  let w := w.DelHeader "Content-Length"
  let w := w.SetHeader "Content-Type" "text/plain; charset=utf-8"
  let w := w.SetHeader "X-Content-Type-Options" "nosniff"
  let w := w.WriteHeader code
  fmt.Fprintln w error

/-- Tells whether a header key is a valid field name: not empty, token
characters only. -/
def validHeaderFieldName (key : String) : Bool :=
  !key.data.isEmpty && key.data.all validHeaderFieldByte

/-- Tells whether a character is a space or a tab. -/
def isBlank (c : Char) : Bool := c = ' ' || c = '\t'

/-- The rewriting `net/http` applies to a header value when it writes the
header to the connection: each line feed and carriage return becomes a space
(`headerNewlineToSpace`), then the blanks at both ends are trimmed
(`textproto.TrimString`). -/
def sanitizeValue (v : String) : String :=
  String.mk (((v.data.map (fun c => if c = '\n' ∨ c = '\r' then ' ' else c)).dropWhile
    isBlank).rdropWhile isBlank)

/-- The headers as `Header.Write` puts them on the connection: entries with an
invalid field name are skipped, each value is rewritten by `sanitizeValue`. -/
def Header.wire (h : Header) : Header :=
  (h.filter (fun kv => validHeaderFieldName kv.1)).map
    (fun kv => (kv.1, kv.2.map sanitizeValue))

/-- What the server sends for one run of a handler: the status, the headers as
written to the connection, and the body bytes the handler wrote. -/
structure Response where
  status : Nat
  header : Header
  body : Bytes

/-- The server step after a handler returns: a handler that sent no status
gets status 200 with the headers it set; the headers go out as `Header.wire`
writes them. -/
def ResponseWriter.finish (w : ResponseWriter) : Response :=
  let w1 := if w.wroteHeader then w else w.WriteHeader http.StatusOK
  { status := w1.status, header := Header.wire w1.sent, body := w1.body }

/-! ## The handlers of `main.go` -/

/-- The type of an `http.HandlerFunc`, with the world passed in and out. -/
abbrev HandlerFunc := World → ResponseWriter → Request → ResponseWriter × World

/-- The function `handler` of `main.go` (lines 14 to 33). -/
def handler : HandlerFunc := fun σ w _r =>
  let w := w.SetHeader "X-Container-ID" (os.Getenv σ "CLOUDFLARE_DEPLOYMENT_ID")
  let w := w.SetHeader "X-Container-Country" (os.Getenv σ "CLOUDFLARE_COUNTRY_A2")
  let w := w.SetHeader "X-Container-Location" (os.Getenv σ "CLOUDFLARE_LOCATION")
  let w := w.SetHeader "X-Container-Region" (os.Getenv σ "CLOUDFLARE_REGION")
  match os.ReadFile σ "index.txt" with
  | .error _ =>
    let w := w.SetHeader "Content-Type" "text/plain"
    let w := fmt.Fprintf w "No Content"
    (w, σ)
  | .ok content =>
    let w := w.SetHeader "Content-Type" "text/plain"
    let w := w.Write content
    (w, σ)

/-- The function `adminUpdateHandler` of `main.go` (lines 35 to 49). -/
def adminUpdateHandler : HandlerFunc := fun σ w r =>
  match io.ReadAll r.Body with
  | (_, some _) =>
    (http.Error w "Error reading request body" http.StatusInternalServerError, σ)
  | (body, none) =>
    match os.WriteFile σ "index.txt" body 0o644 with
    | (some _, σ1) =>
      (http.Error w "Error writing to file" http.StatusInternalServerError, σ1)
    | (none, σ1) =>
      (fmt.Fprintf w "Content successfully updated", σ1)

/-- One request served by a handler: the handler runs on a fresh writer, then
the server completes the response. -/
def serve (h : HandlerFunc) (σ : World) (r : Request) : Response × World :=
  let out := h σ ResponseWriter.fresh r
  (out.1.finish, out.2)

/-! ## Routing: the `http.ServeMux` that `main` builds -/

/-- The handlers `main` registers, by name. -/
inductive Registered where
  | handler
  | adminUpdateHandler
  deriving DecidableEq, Repr

/-- The function behind a registered name. -/
def Registered.run : Registered → HandlerFunc
  | Registered.handler => ContainerPool.handler
  | Registered.adminUpdateHandler => ContainerPool.adminUpdateHandler

/-- The segments of a path, split at each slash. -/
def splitSlash : List Char → List (List Char)
  | [] => [[]]
  | c :: cs =>
    match splitSlash cs with
    | [] => [[]]
    | seg :: segs => if c = '/' then [] :: seg :: segs else (c :: seg) :: segs

/-- The value of a hexadecimal digit, `none` for any other character. -/
def unhex (c : Char) : Option Nat :=
  if 48 ≤ c.toNat ∧ c.toNat ≤ 57 then some (c.toNat - 48)
  else if 97 ≤ c.toNat ∧ c.toNat ≤ 102 then some (c.toNat - 87)
  else if 65 ≤ c.toNat ∧ c.toNat ≤ 70 then some (c.toNat - 55)
  else none

/-- Where the percent-decoder stands: outside an escape, after `%`, or after
`%` and one digit of value `hi`. -/
inductive EscapeState where
  | plain
  | percent
  | digit (hi : Nat)
  deriving DecidableEq, Repr

/-- Percent-decoding as `url.PathUnescape` does it: `%XY` with two hexadecimal
digits stands for the byte of that value, any other `%` is an error (`none`).
A decoded byte is kept as the character of the same code. -/
def unescapeFrom : EscapeState → List Char → Option (List Char)
  | EscapeState.plain, [] => some []
  | EscapeState.percent, [] => none
  | EscapeState.digit _, [] => none
  | EscapeState.plain, c :: cs =>
    if c = '%' then unescapeFrom EscapeState.percent cs
    else (unescapeFrom EscapeState.plain cs).map (fun out => c :: out)
  | EscapeState.percent, c :: cs =>
    match unhex c with
    | some hi => unescapeFrom (EscapeState.digit hi) cs
    | none => none
  | EscapeState.digit hi, c :: cs =>
    match unhex c with
    | some lo =>
      (unescapeFrom EscapeState.plain cs).map (fun out => Char.ofNat (16 * hi + lo) :: out)
    | none => none

/-- The mux helper `pathUnescape`: the decoded segment, or the segment as it is
when it is not validly escaped. -/
def pathUnescape (seg : List Char) : List Char :=
  match unescapeFrom EscapeState.plain seg with
  | some out => out
  | none => seg

/-- A parsed mux pattern `[METHOD ]PATH` without host and without wildcards, the
only kind `main` registers: the literal segments of the path, and whether the
path ends in a slash (`multi`), in which case the pattern stands for the whole
subtree below its segments. -/
structure Pattern where
  method : String
  segments : List String
  multi : Bool
  deriving DecidableEq, Repr

/-- Parsing of a pattern string: the method is what precedes the first space or
tab, the path is the rest without leading spaces and tabs; a string without
space or tab is a path for every method.  The path is cut at its slashes into
literal segments, each percent-decoded; an empty last piece is a trailing
slash. -/
def parsePattern (s : String) : Pattern :=
  let parts : List Char × List Char :=
    match s.data.span (fun c => !(c = ' ' || c = '\t')) with
    | (m, _ :: rest) => (m, rest.dropWhile (fun c => c = ' ' || c = '\t'))
    | (p, []) => ([], p)
  let pieces := (splitSlash parts.2).tail
  if pieces.getLast? = some [] then
    { method := String.mk parts.1,
      segments := pieces.dropLast.map (fun seg => String.mk (pathUnescape seg)),
      multi := true }
  else
    { method := String.mk parts.1,
      segments := pieces.map (fun seg => String.mk (pathUnescape seg)),
      multi := false }

/-- The number of segments of the pattern as the mux counts them: the literal
ones, and one more for a trailing slash. -/
def Pattern.size (p : Pattern) : Nat := p.segments.length + (if p.multi then 1 else 0)

/-- The mux helper `firstSegment`: the first segment of a path, decoded, and
the rest of the path; the path `/` is the segment `/` with nothing left. -/
def firstSegment (path : List Char) : List Char × List Char :=
  if path = ['/'] then (['/'], [])
  else
    (pathUnescape (path.tail.takeWhile (fun c => c ≠ '/')),
      path.tail.dropWhile (fun c => c ≠ '/'))

/-- The walk of the mux down the segments of one pattern (`matchPath`): each
literal segment must equal the next decoded segment of the path; at the end a
pattern without trailing slash needs the path used up, a pattern with trailing
slash needs something left. -/
def matchSegments : List String → Bool → List Char → Bool
  | [], multi, path => if multi then !path.isEmpty else path.isEmpty
  | l :: ls, multi, path =>
    !path.isEmpty && (firstSegment path).1 = l.data &&
      matchSegments ls multi (firstSegment path).2

/-- Tells whether the pattern matches the escaped request path. -/
def Pattern.matchesPath (p : Pattern) (path : String) : Bool :=
  matchSegments p.segments p.multi path.data

/-- The mux: the registered patterns with their handlers, in order of
registration. -/
structure ServeMux where
  entries : List (Pattern × Registered)

/-- Go `http.NewServeMux`: a mux without patterns. -/
def http.NewServeMux : ServeMux := { entries := [] }

/-- The call `mux.HandleFunc(pattern, handler)`. -/
def ServeMux.HandleFunc (mux : ServeMux) (pattern : String) (h : Registered) : ServeMux :=
  { entries := mux.entries ++ [(parsePattern pattern, h)] }

/-- The more specific of two entries that match the same path: the one with
more literal segments (the mux tries a literal segment before a trailing
slash at every step). -/
def moreSpecific (best : Option (Pattern × Registered)) (e : Pattern × Registered) :
    Option (Pattern × Registered) :=
  match best with
  | none => some e
  | some b => if b.1.segments.length < e.1.segments.length then some e else some b

/-- The most specific entry registered for exactly this method whose path
matches. -/
def ServeMux.matchPath (mux : ServeMux) (method path : String) :
    Option (Pattern × Registered) :=
  (mux.entries.filter (fun e => e.1.method = method && e.1.matchesPath path)).foldl
    moreSpecific none

/-- The mux match on method and path: the request method first, `GET`
patterns for a `HEAD` request next, patterns without method last. -/
def ServeMux.matchMethodAndPath (mux : ServeMux) (method path : String) :
    Option (Pattern × Registered) :=
  match mux.matchPath method path with
  | some e => some e
  | none =>
    match (if method = "HEAD" then mux.matchPath "GET" path else none) with
    | some e => some e
    | none => mux.matchPath "" path

/-- The mux test `exactMatch`: a pattern without trailing slash matches
exactly; one with trailing slash matches exactly only a path that ends in a
slash and has as many slashes as the pattern has segments. -/
def exactMatch (n : Option (Pattern × Registered)) (path : String) : Bool :=
  match n with
  | none => false
  | some e =>
    if !e.1.multi then true
    else if path.data.getLast?.any (fun c => c ≠ '/') then false
    else e.1.size = path.data.count '/'

/-- The mux step `matchOrRedirect`: the match, and whether the request is to be
redirected to the path with a slash appended because a pattern matches that
path exactly. -/
def ServeMux.matchOrRedirect (mux : ServeMux) (method path : String) :
    Option (Pattern × Registered) × Bool :=
  let n := mux.matchMethodAndPath method path
  if !exactMatch n path && !(path.data.getLast? = some '/') &&
      exactMatch (mux.matchMethodAndPath method (path ++ "/")) (path ++ "/") then
    (none, true)
  else (n, false)

/-- The order of Go on strings, byte by byte. -/
def stringLE : List Char → List Char → Bool
  | [], _ => true
  | _ :: _, [] => false
  | a :: as, b :: bs => a.toNat < b.toNat || (a = b && stringLE as bs)

/-- The methods for which some pattern matches the path, `HEAD` added when
`GET` is among them, sorted. -/
def ServeMux.matchingMethods (mux : ServeMux) (path : String) : List String :=
  let ms := (mux.entries.filter
    (fun e => e.1.method ≠ "" && e.1.matchesPath path)).map (fun e => e.1.method)
  let ms := if ms.contains "GET" then "HEAD" :: ms else ms
  ms.eraseDups.insertionSort (fun a b => stringLE a.data b.data)

/-- One step of `path.Clean` on a rooted path, the segments kept so far in
reverse: empty segments and `.` are dropped, `..` removes the last segment kept
(none at the root). -/
def cleanStep (kept : List (List Char)) (seg : List Char) : List (List Char) :=
  if seg = [] || seg = ['.'] then kept
  else if seg = ['.', '.'] then kept.tail
  else seg :: kept

/-- The mux helper `cleanPath`: the canonical form of a path, rooted, without
`.` and `..` elements and double slashes, keeping a trailing slash.  It works
on the escaped path, so an escaped dot is not a dot. -/
def cleanPath (p : String) : String :=
  let cs := if p.data.head? = some '/' then p.data else '/' :: p.data
  let kept := ((splitSlash cs).foldl cleanStep []).reverse
  let np := '/' :: List.intercalate ['/'] kept
  if cs.getLast? = some '/' && np ≠ ['/'] then String.mk (np ++ ['/']) else String.mk np

/-- The outcome of routing a request. -/
inductive Dispatch where
  /-- The request goes to a registered handler. -/
  | registered (h : Registered)
  /-- The mux redirects to the location with status 301. -/
  | redirect (location : String)
  /-- No pattern matches the method, some pattern matches the path: 405. -/
  | methodNotAllowed (allow : List String)
  /-- No pattern matches the path: 404. -/
  | notFound
  deriving DecidableEq, Repr

/-- The outcome for a match result: the matched handler, else 405 when other
methods match the path, else 404. -/
def ServeMux.resolve (mux : ServeMux) (n : Option (Pattern × Registered)) (path : String) :
    Dispatch :=
  match n with
  | some e => Dispatch.registered e.2
  | none =>
    let allowed := mux.matchingMethods path
    if allowed ≠ [] then Dispatch.methodNotAllowed allowed else Dispatch.notFound

/-- The mux step `findHandler`.  A `CONNECT` request is matched as it is; any
other request is matched on its cleaned path and redirected to it when its
path is not canonical. -/
def ServeMux.findHandler (mux : ServeMux) (r : Request) : Dispatch :=
  if r.method = "CONNECT" then
    let m := mux.matchOrRedirect r.method r.path
    if m.2 then Dispatch.redirect (cleanPath r.path ++ "/")
    else mux.resolve m.1 r.path
  else
    let path := cleanPath r.path
    let m := mux.matchOrRedirect r.method path
    if m.2 then Dispatch.redirect (cleanPath r.path ++ "/")
    else if path ≠ r.path then Dispatch.redirect path
    else mux.resolve m.1 path

/-- The constant `http.StatusMovedPermanently`. -/
def http.StatusMovedPermanently : Nat := 301

/-- The constant `http.StatusNotFound`. -/
def http.StatusNotFound : Nat := 404

/-- The constant `http.StatusMethodNotAllowed`. -/
def http.StatusMethodNotAllowed : Nat := 405

/-- The handler behind a routing outcome.  The replies the mux gives by itself
are those of `net/http`: `http.Error` for 404 and 405 (with an `Allow` header),
and for the redirect a `Location` header with the status `findHandler` of
Go 1.22 passes (the page that goes with the redirect is left out). -/
def Dispatch.run : Dispatch → HandlerFunc
  | Dispatch.registered h => h.run
  | Dispatch.redirect location => fun σ w _r =>
    ((w.SetHeader "Location" location).WriteHeader http.StatusMovedPermanently, σ)
  | Dispatch.methodNotAllowed allow => fun σ w _r =>
    (http.Error (w.SetHeader "Allow" (", ".intercalate allow)) "Method Not Allowed"
      http.StatusMethodNotAllowed, σ)
  | Dispatch.notFound => fun σ w _r =>
    (http.Error w "404 page not found" http.StatusNotFound, σ)

/-- Go `mux.ServeHTTP`: one request routed and served. -/
def ServeMux.ServeHTTP (mux : ServeMux) (σ : World) (r : Request) : Response × World :=
  serve (mux.findHandler r).run σ r

/-- The mux `main` builds (lines 52 to 55 of `main.go`). -/
def mux : ServeMux :=
  let mux := http.NewServeMux
  let mux := mux.HandleFunc "GET /" Registered.handler
  let mux := mux.HandleFunc "POST /admin/update-text" Registered.adminUpdateHandler
  mux

/-! ## Auxiliary definitions for the statements -/

/-- A path is rooted when it starts with a slash. -/
def rooted (path : String) : Bool := path.data.head? = some '/'

/-- Tells whether the pattern `POST /admin/update-text` matches the path: the
path is `/admin/update-text` or a percent-encoded spelling of it. -/
def matchesAdminUpdate (path : String) : Bool :=
  (parsePattern "POST /admin/update-text").matchesPath path

/-- The value of the `Allow` header of the 405 reply for a path. -/
def allowValue (path : String) : String :=
  if matchesAdminUpdate path then "GET, HEAD, POST" else "GET, HEAD"

/-- The methods the 405 reply for a path names. -/
def allowedMethods (path : String) : List String :=
  if matchesAdminUpdate path then ["GET", "HEAD", "POST"] else ["GET", "HEAD"]

/-- The header map `handler` has filled when it writes its body. -/
def handlerHeaderMap (σ : World) : Header :=
  [("Content-Type", ["text/plain"]),
   ("X-Container-Region", [os.Getenv σ "CLOUDFLARE_REGION"]),
   ("X-Container-Location", [os.Getenv σ "CLOUDFLARE_LOCATION"]),
   ("X-Container-Country", [os.Getenv σ "CLOUDFLARE_COUNTRY_A2"]),
   ("X-Container-Id", [os.Getenv σ "CLOUDFLARE_DEPLOYMENT_ID"])]

/-- The headers of a response of `handler`, as sent. -/
def handlerHeaders (σ : World) : Header :=
  [("Content-Type", ["text/plain"]),
   ("X-Container-Region", [sanitizeValue (os.Getenv σ "CLOUDFLARE_REGION")]),
   ("X-Container-Location", [sanitizeValue (os.Getenv σ "CLOUDFLARE_LOCATION")]),
   ("X-Container-Country", [sanitizeValue (os.Getenv σ "CLOUDFLARE_COUNTRY_A2")]),
   ("X-Container-Id", [sanitizeValue (os.Getenv σ "CLOUDFLARE_DEPLOYMENT_ID")])]

/-- The headers `http.Error` sends from a fresh writer. -/
def errorHeaders : Header :=
  [("X-Content-Type-Options", ["nosniff"]), ("Content-Type", ["text/plain; charset=utf-8"])]

/-- Tells whether a header value goes out unchanged: no line feed or carriage
return in it, no blank at either end. -/
def wireSafe (v : String) : Bool :=
  v.data.all (fun c => !(c = '\n' || c = '\r')) &&
    !(v.data.head?.any isBlank) && !(v.data.getLast?.any isBlank)

/-! ## Worlds and requests used as concrete inputs -/

/-- A world with no variable set, no file, and no I/O fault. -/
def emptyWorld : World :=
  { env := fun _ => none, files := fun _ => none,
    readFault := fun _ => none, writeFault := fun _ => none }

/-- A world where `index.txt` holds `old`, without I/O fault. -/
def oldWorld : World :=
  { env := fun _ => none, files := fun p => if p = "index.txt" then some (bytesOf "old") else none,
    readFault := fun _ => none, writeFault := fun _ => none }

/-- A world where `index.txt` holds `old` and every write to it fails at the
open step. -/
def readOnlyWorld : World :=
  { oldWorld with
    writeFault := fun p =>
      if p = "index.txt" then some (WriteFault.atOpen GoError.permission) else none }

/-- A world where `CLOUDFLARE_REGION` is ` eu`, a line feed, `x ` and
`CLOUDFLARE_LOCATION` is `fra`, without file and without I/O fault. -/
def regionWorld : World :=
  { env := fun k =>
      if k = "CLOUDFLARE_REGION" then some " eu\nx "
      else if k = "CLOUDFLARE_LOCATION" then some "fra" else none,
    files := fun _ => none, readFault := fun _ => none, writeFault := fun _ => none }

/-- A `GET /` request. -/
def getRoot : Request := { method := "GET", path := "/", Body := { data := [], failure := none } }

/-- A `POST /admin/update-text` request whose body `hi` arrives in full. -/
def postHi : Request :=
  { method := "POST", path := "/admin/update-text",
    Body := { data := bytesOf "hi", failure := none } }

/-- A `POST /admin/update-text` request whose body breaks off after `h`. -/
def postBroken : Request :=
  { method := "POST", path := "/admin/update-text",
    Body := { data := bytesOf "h", failure := some (GoError.other "unexpected EOF") } }

/-- A `GET /nonexistent` request. -/
def getNonexistent : Request :=
  { method := "GET", path := "/nonexistent", Body := { data := [], failure := none } }

/-- A `DELETE /nonexistent` request. -/
def deleteNonexistent : Request :=
  { method := "DELETE", path := "/nonexistent", Body := { data := [], failure := none } }

/-! # Theorems -/

/-! ## Canonical forms of the header keys of the program -/

theorem canonical_containerID :
    CanonicalMIMEHeaderKey "X-Container-ID" = "X-Container-Id" := by decide

theorem canonical_containerCountry :
    CanonicalMIMEHeaderKey "X-Container-Country" = "X-Container-Country" := by decide

theorem canonical_containerLocation :
    CanonicalMIMEHeaderKey "X-Container-Location" = "X-Container-Location" := by decide

theorem canonical_containerRegion :
    CanonicalMIMEHeaderKey "X-Container-Region" = "X-Container-Region" := by decide

theorem canonical_contentType :
    CanonicalMIMEHeaderKey "Content-Type" = "Content-Type" := by decide

theorem canonical_contentLength :
    CanonicalMIMEHeaderKey "Content-Length" = "Content-Length" := by decide

theorem canonical_nosniff :
    CanonicalMIMEHeaderKey "X-Content-Type-Options" = "X-Content-Type-Options" := by decide

theorem validName_containerID : validHeaderFieldName "X-Container-Id" = true := by decide

theorem validName_containerCountry : validHeaderFieldName "X-Container-Country" = true := by
  decide

theorem validName_containerLocation : validHeaderFieldName "X-Container-Location" = true := by
  decide

theorem validName_containerRegion : validHeaderFieldName "X-Container-Region" = true := by
  decide

theorem validName_contentType : validHeaderFieldName "Content-Type" = true := by decide

theorem validName_nosniff : validHeaderFieldName "X-Content-Type-Options" = true := by decide

theorem sanitize_textPlain : sanitizeValue "text/plain" = "text/plain" := by decide

theorem sanitize_textPlainUtf8 :
    sanitizeValue "text/plain; charset=utf-8" = "text/plain; charset=utf-8" := by decide

theorem sanitize_nosniff : sanitizeValue "nosniff" = "nosniff" := by decide

theorem wire_handlerHeaderMap (σ : World) :
    Header.wire (handlerHeaderMap σ) = handlerHeaders σ := by
  simp [Header.wire, handlerHeaderMap, handlerHeaders, List.filter, validName_containerID,
    validName_containerCountry, validName_containerLocation, validName_containerRegion,
    validName_contentType, sanitize_textPlain]

theorem wire_errorHeaders : Header.wire errorHeaders = errorHeaders := by
  simp [Header.wire, errorHeaders, List.filter, validName_contentType, validName_nosniff,
    sanitize_textPlainUtf8, sanitize_nosniff]

/-- A value that `wireSafe` accepts goes out unchanged. -/
theorem sanitizeValue_of_wireSafe (v : String) (h : wireSafe v = true) : sanitizeValue v = v := by
  obtain ⟨cs⟩ := v
  simp only [wireSafe, Bool.and_eq_true, Bool.not_eq_true', List.all_eq_true] at h
  obtain ⟨⟨hall, hhead⟩, hlast⟩ := h
  have hmap : cs.map (fun c => if c = '\n' ∨ c = '\r' then ' ' else c) = cs := by
    conv_rhs => rw [← List.map_id cs]
    apply List.map_congr_left
    intro c hc
    have := hall c hc
    simp at this
    simp [this.1, this.2]
  have hdrop : cs.dropWhile isBlank = cs := by
    cases cs with
    | nil => rfl
    | cons c rest =>
      simp at hhead
      simp [List.dropWhile, hhead]
  have hrdrop : cs.rdropWhile isBlank = cs := by
    rw [List.rdropWhile_eq_self_iff]
    intro hne
    have hl : cs.getLast? = some (cs.getLast hne) := List.getLast?_eq_getLast cs hne
    rw [hl] at hlast
    simpa using hlast
  simp only [sanitizeValue]
  rw [hmap, hdrop, hrdrop]

/-! ## What each handler answers, path by path -/

theorem serve_handler_readError (σ : World) (r : Request) (e : GoError)
    (h : os.ReadFile σ "index.txt" = Except.error e) :
    serve handler σ r =
      ({ status := 200, header := handlerHeaders σ, body := bytesOf "No Content" }, σ) := by
  simp [serve, handler, h, fmt.Fprintf, ResponseWriter.Write, ResponseWriter.WriteHeader,
    ResponseWriter.SetHeader, ResponseWriter.fresh, ResponseWriter.finish, Header.Set,
    Header.Del, handlerHeaders, canonical_containerID, canonical_containerCountry,
    canonical_containerLocation, canonical_containerRegion, canonical_contentType]
  exact wire_handlerHeaderMap σ

theorem serve_handler_readOk (σ : World) (r : Request) (content : Bytes)
    (h : os.ReadFile σ "index.txt" = Except.ok content) :
    serve handler σ r =
      ({ status := 200, header := handlerHeaders σ, body := content }, σ) := by
  simp [serve, handler, h, ResponseWriter.Write, ResponseWriter.WriteHeader,
    ResponseWriter.SetHeader, ResponseWriter.fresh, ResponseWriter.finish, Header.Set,
    Header.Del, handlerHeaders, canonical_containerID, canonical_containerCountry,
    canonical_containerLocation, canonical_containerRegion, canonical_contentType]
  exact wire_handlerHeaderMap σ

theorem handler_headerMap (σ : World) (r : Request) :
    (handler σ ResponseWriter.fresh r).1.header = handlerHeaderMap σ := by
  cases h : os.ReadFile σ "index.txt" <;>
  simp [handler, h, fmt.Fprintf, ResponseWriter.Write, ResponseWriter.WriteHeader,
    ResponseWriter.SetHeader, ResponseWriter.fresh, Header.Set,
    Header.Del, handlerHeaderMap, canonical_containerID, canonical_containerCountry,
    canonical_containerLocation, canonical_containerRegion, canonical_contentType]

theorem serve_admin_readError (σ : World) (r : Request) (e : GoError)
    (h : (io.ReadAll r.Body).2 = some e) :
    serve adminUpdateHandler σ r =
      ({ status := 500, header := errorHeaders,
         body := bytesOf "Error reading request body" ++ [10] }, σ) := by
  obtain ⟨method, path, data, failure⟩ := r
  simp only [io.ReadAll] at h
  subst h
  simp [serve, adminUpdateHandler, io.ReadAll, http.Error, fmt.Fprintln, ResponseWriter.Write,
    ResponseWriter.WriteHeader, ResponseWriter.SetHeader, ResponseWriter.DelHeader,
    ResponseWriter.fresh, ResponseWriter.finish, Header.Set, Header.Del, errorHeaders,
    canonical_contentType, canonical_contentLength, canonical_nosniff,
    http.StatusInternalServerError]
  exact wire_errorHeaders

theorem serve_admin_writeError (σ : World) (r : Request) (e : GoError)
    (hr : (io.ReadAll r.Body).2 = none)
    (hw : (os.WriteFile σ "index.txt" (io.ReadAll r.Body).1 0o644).1 = some e) :
    serve adminUpdateHandler σ r =
      ({ status := 500, header := errorHeaders,
         body := bytesOf "Error writing to file" ++ [10] },
       (os.WriteFile σ "index.txt" (io.ReadAll r.Body).1 0o644).2) := by
  obtain ⟨method, path, data, failure⟩ := r
  simp only [io.ReadAll] at hr hw
  subst hr
  generalize hout : os.WriteFile σ "index.txt" data 0o644 = out at hw
  obtain ⟨err, σ1⟩ := out
  simp only at hw
  subst hw
  simp [serve, adminUpdateHandler, io.ReadAll, hout, http.Error, fmt.Fprintln,
    ResponseWriter.Write,
    ResponseWriter.WriteHeader, ResponseWriter.SetHeader, ResponseWriter.DelHeader,
    ResponseWriter.fresh, ResponseWriter.finish, Header.Set, Header.Del, errorHeaders,
    canonical_contentType, canonical_contentLength, canonical_nosniff,
    http.StatusInternalServerError]
  exact wire_errorHeaders

theorem serve_admin_ok (σ : World) (r : Request)
    (hr : (io.ReadAll r.Body).2 = none)
    (hw : (os.WriteFile σ "index.txt" (io.ReadAll r.Body).1 0o644).1 = none) :
    serve adminUpdateHandler σ r =
      ({ status := 200, header := [], body := bytesOf "Content successfully updated" },
       (os.WriteFile σ "index.txt" (io.ReadAll r.Body).1 0o644).2) := by
  obtain ⟨method, path, data, failure⟩ := r
  simp only [io.ReadAll] at hr hw
  subst hr
  generalize hout : os.WriteFile σ "index.txt" data 0o644 = out at hw
  obtain ⟨err, σ1⟩ := out
  simp only at hw
  subst hw
  simp [serve, adminUpdateHandler, io.ReadAll, hout, fmt.Fprintf, ResponseWriter.Write,
    ResponseWriter.WriteHeader, ResponseWriter.fresh, ResponseWriter.finish]
  rfl

/-! ## The handler `handler` -/

/-- C4: whenever reading `index.txt` fails, with whatever error, `handler`
answers with status 200, `Content-Type: text/plain`, and a body that is exactly
the 10 bytes `No Content`. -/
theorem handler_read_failure_fallback (σ : World) (r : Request) (e : GoError)
    (h : os.ReadFile σ "index.txt" = Except.error e) :
    (serve handler σ r).1.status = 200 ∧
    Header.Values (serve handler σ r).1.header "Content-Type" = ["text/plain"] ∧
    (serve handler σ r).1.body = [78, 111, 32, 67, 111, 110, 116, 101, 110, 116] ∧
    (serve handler σ r).1.body = bytesOf "No Content" ∧
    (serve handler σ r).1.body.length = 10 := by
  rw [serve_handler_readError σ r e h]
  refine ⟨rfl, ?_, ?_, rfl, ?_⟩
  · simp [Header.Values, handlerHeaders, canonical_contentType, List.lookup]
  · show bytesOf "No Content" = [78, 111, 32, 67, 111, 110, 116, 101, 110, 116]
    decide
  · show (bytesOf "No Content").length = 10
    decide

/-- C4, at a world where `index.txt` does not exist. -/
theorem handler_read_failure_fallback_witness :
    os.ReadFile emptyWorld "index.txt" = Except.error GoError.notExist ∧
    (serve handler emptyWorld getRoot).1.status = 200 ∧
    Header.Values (serve handler emptyWorld getRoot).1.header "Content-Type" = ["text/plain"] ∧
    (serve handler emptyWorld getRoot).1.body = [78, 111, 32, 67, 111, 110, 116, 101, 110, 116] ∧
    (serve handler emptyWorld getRoot).1.body = bytesOf "No Content" ∧
    (serve handler emptyWorld getRoot).1.body.length = 10 :=
  ⟨rfl, handler_read_failure_fallback emptyWorld getRoot GoError.notExist rfl⟩

/-- C5, against the claim as stated: with `CLOUDFLARE_REGION` set to ` eu`, a
line feed, `x `, the response of `handler` carries `X-Container-Region: eu x`,
which is not the value of the variable.  So the four headers do not equal the
four variables for every environment. -/
theorem metadata_headers_exact_fails :
    os.Getenv regionWorld "CLOUDFLARE_REGION" = " eu\nx " ∧
    Header.Values (serve handler regionWorld getRoot).1.header "X-Container-Region" = ["eu x"] ∧
    ¬ (∀ (σ : World) (r : Request),
        Header.Values (serve handler σ r).1.header "X-Container-ID" =
          [(σ.env "CLOUDFLARE_DEPLOYMENT_ID").getD ""] ∧
        Header.Values (serve handler σ r).1.header "X-Container-Country" =
          [(σ.env "CLOUDFLARE_COUNTRY_A2").getD ""] ∧
        Header.Values (serve handler σ r).1.header "X-Container-Location" =
          [(σ.env "CLOUDFLARE_LOCATION").getD ""] ∧
        Header.Values (serve handler σ r).1.header "X-Container-Region" =
          [(σ.env "CLOUDFLARE_REGION").getD ""]) := by
  have hval : Header.Values (serve handler regionWorld getRoot).1.header "X-Container-Region" =
      ["eu x"] := by
    rw [serve_handler_readError regionWorld getRoot GoError.notExist rfl]
    decide
  refine ⟨rfl, hval, ?_⟩
  intro hall
  have h := (hall regionWorld getRoot).2.2.2
  rw [hval] at h
  exact absurd h (by decide)

/-- C5, amended: whether or not `index.txt` can be read, the header map that
`handler` fills holds, under `X-Container-ID`, `X-Container-Country`,
`X-Container-Location` and `X-Container-Region`, exactly one value each: the
value of `CLOUDFLARE_DEPLOYMENT_ID`, `CLOUDFLARE_COUNTRY_A2`,
`CLOUDFLARE_LOCATION` and `CLOUDFLARE_REGION`, the empty string for an unset
variable.  The response carries each of them as `net/http` writes a header
value: line feeds and carriage returns replaced by spaces, blanks at both ends
trimmed.  So the header in the response equals the variable whenever its value
has no line feed or carriage return and no blank at either end, and it is empty
for an unset variable. -/
theorem handler_metadata_headers (σ : World) (r : Request) :
    (Header.Values (handler σ ResponseWriter.fresh r).1.header "X-Container-ID" =
        [(σ.env "CLOUDFLARE_DEPLOYMENT_ID").getD ""] ∧
      Header.Values (handler σ ResponseWriter.fresh r).1.header "X-Container-Country" =
        [(σ.env "CLOUDFLARE_COUNTRY_A2").getD ""] ∧
      Header.Values (handler σ ResponseWriter.fresh r).1.header "X-Container-Location" =
        [(σ.env "CLOUDFLARE_LOCATION").getD ""] ∧
      Header.Values (handler σ ResponseWriter.fresh r).1.header "X-Container-Region" =
        [(σ.env "CLOUDFLARE_REGION").getD ""]) ∧
    (Header.Values (serve handler σ r).1.header "X-Container-ID" =
        [sanitizeValue ((σ.env "CLOUDFLARE_DEPLOYMENT_ID").getD "")] ∧
      Header.Values (serve handler σ r).1.header "X-Container-Country" =
        [sanitizeValue ((σ.env "CLOUDFLARE_COUNTRY_A2").getD "")] ∧
      Header.Values (serve handler σ r).1.header "X-Container-Location" =
        [sanitizeValue ((σ.env "CLOUDFLARE_LOCATION").getD "")] ∧
      Header.Values (serve handler σ r).1.header "X-Container-Region" =
        [sanitizeValue ((σ.env "CLOUDFLARE_REGION").getD "")]) ∧
    (wireSafe ((σ.env "CLOUDFLARE_DEPLOYMENT_ID").getD "") = true →
      Header.Values (serve handler σ r).1.header "X-Container-ID" =
        [(σ.env "CLOUDFLARE_DEPLOYMENT_ID").getD ""]) ∧
    (wireSafe ((σ.env "CLOUDFLARE_COUNTRY_A2").getD "") = true →
      Header.Values (serve handler σ r).1.header "X-Container-Country" =
        [(σ.env "CLOUDFLARE_COUNTRY_A2").getD ""]) ∧
    (wireSafe ((σ.env "CLOUDFLARE_LOCATION").getD "") = true →
      Header.Values (serve handler σ r).1.header "X-Container-Location" =
        [(σ.env "CLOUDFLARE_LOCATION").getD ""]) ∧
    (wireSafe ((σ.env "CLOUDFLARE_REGION").getD "") = true →
      Header.Values (serve handler σ r).1.header "X-Container-Region" =
        [(σ.env "CLOUDFLARE_REGION").getD ""]) ∧
    wireSafe "" = true := by
  have hget : ∀ key, os.Getenv σ key = (σ.env key).getD "" := by
    intro key
    unfold os.Getenv
    cases σ.env key <;> rfl
  have hmap : (Header.Values (handler σ ResponseWriter.fresh r).1.header "X-Container-ID" =
        [(σ.env "CLOUDFLARE_DEPLOYMENT_ID").getD ""] ∧
      Header.Values (handler σ ResponseWriter.fresh r).1.header "X-Container-Country" =
        [(σ.env "CLOUDFLARE_COUNTRY_A2").getD ""] ∧
      Header.Values (handler σ ResponseWriter.fresh r).1.header "X-Container-Location" =
        [(σ.env "CLOUDFLARE_LOCATION").getD ""] ∧
      Header.Values (handler σ ResponseWriter.fresh r).1.header "X-Container-Region" =
        [(σ.env "CLOUDFLARE_REGION").getD ""]) := by
    rw [handler_headerMap σ r]
    simp [Header.Values, handlerHeaderMap, canonical_containerID, canonical_containerCountry,
      canonical_containerLocation, canonical_containerRegion, List.lookup, hget]
  have hwire : (Header.Values (serve handler σ r).1.header "X-Container-ID" =
        [sanitizeValue ((σ.env "CLOUDFLARE_DEPLOYMENT_ID").getD "")] ∧
      Header.Values (serve handler σ r).1.header "X-Container-Country" =
        [sanitizeValue ((σ.env "CLOUDFLARE_COUNTRY_A2").getD "")] ∧
      Header.Values (serve handler σ r).1.header "X-Container-Location" =
        [sanitizeValue ((σ.env "CLOUDFLARE_LOCATION").getD "")] ∧
      Header.Values (serve handler σ r).1.header "X-Container-Region" =
        [sanitizeValue ((σ.env "CLOUDFLARE_REGION").getD "")]) := by
    cases hrd : os.ReadFile σ "index.txt" with
    | error e =>
      rw [serve_handler_readError σ r e hrd]
      simp [Header.Values, handlerHeaders, canonical_containerID, canonical_containerCountry,
        canonical_containerLocation, canonical_containerRegion, List.lookup, hget]
    | ok content =>
      rw [serve_handler_readOk σ r content hrd]
      simp [Header.Values, handlerHeaders, canonical_containerID, canonical_containerCountry,
        canonical_containerLocation, canonical_containerRegion, List.lookup, hget]
  refine ⟨hmap, hwire, ?_, ?_, ?_, ?_, by decide⟩
  · intro hs
    rw [hwire.1, sanitizeValue_of_wireSafe _ hs]
  · intro hs
    rw [hwire.2.1, sanitizeValue_of_wireSafe _ hs]
  · intro hs
    rw [hwire.2.2.1, sanitizeValue_of_wireSafe _ hs]
  · intro hs
    rw [hwire.2.2.2, sanitizeValue_of_wireSafe _ hs]

/-- C5 amended, at a world where `CLOUDFLARE_LOCATION` is `fra` and
`CLOUDFLARE_DEPLOYMENT_ID` is unset: the response carries
`X-Container-Location: fra` and an empty `X-Container-ID`. -/
theorem handler_metadata_headers_witness :
    wireSafe ((regionWorld.env "CLOUDFLARE_LOCATION").getD "") = true ∧
    wireSafe ((regionWorld.env "CLOUDFLARE_DEPLOYMENT_ID").getD "") = true ∧
    Header.Values (serve handler regionWorld getRoot).1.header "X-Container-Location" = ["fra"] ∧
    Header.Values (serve handler regionWorld getRoot).1.header "X-Container-ID" = [""] :=
  ⟨by decide, by decide,
    (handler_metadata_headers regionWorld getRoot).2.2.2.2.1 (by decide),
    (handler_metadata_headers regionWorld getRoot).2.2.1 (by decide)⟩

/-- C8: for every stored content, and for the fallback as well, the response of
`handler` has `Content-Type` set to exactly `text/plain`. -/
theorem handler_content_type_fixed (σ : World) (r : Request) :
    Header.Values (serve handler σ r).1.header "Content-Type" = ["text/plain"] ∧
    Header.Get (serve handler σ r).1.header "Content-Type" = "text/plain" := by
  cases hrd : os.ReadFile σ "index.txt" with
  | error e =>
    rw [serve_handler_readError σ r e hrd]
    simp [Header.Get, Header.Values, handlerHeaders, canonical_contentType, List.lookup]
  | ok content =>
    rw [serve_handler_readOk σ r content hrd]
    simp [Header.Get, Header.Values, handlerHeaders, canonical_contentType, List.lookup]

/-- C10: running `handler` leaves the world, `index.txt` included, as it was,
and a second run right after the first gives the same response (status,
headers and body). -/
theorem handler_reads_do_not_change_state (σ : World) (r1 r2 : Request) :
    (serve handler σ r1).2 = σ ∧
    (serve handler σ r1).2.files "index.txt" = σ.files "index.txt" ∧
    (serve handler (serve handler σ r1).2 r2).1 = (serve handler σ r1).1 := by
  have hframe : ∀ r, (serve handler σ r).2 = σ := by
    intro r
    cases hrd : os.ReadFile σ "index.txt" with
    | error e => rw [serve_handler_readError σ r e hrd]
    | ok content => rw [serve_handler_readOk σ r content hrd]
  refine ⟨hframe r1, by rw [hframe r1], ?_⟩
  rw [hframe r1]
  cases hrd : os.ReadFile σ "index.txt" with
  | error e => rw [serve_handler_readError σ r1 e hrd, serve_handler_readError σ r2 e hrd]
  | ok content => rw [serve_handler_readOk σ r1 content hrd, serve_handler_readOk σ r2 content hrd]

/-! ## The handler `adminUpdateHandler` -/

/-- C3: when the request body cannot be read in full, `adminUpdateHandler`
answers with status 500 and the world, `index.txt` included, is exactly as
before the request. -/
theorem admin_failed_body_read_atomic (σ : World) (r : Request) (e : GoError)
    (h : (io.ReadAll r.Body).2 = some e) :
    (serve adminUpdateHandler σ r).1.status = 500 ∧
    (serve adminUpdateHandler σ r).2 = σ ∧
    (serve adminUpdateHandler σ r).2.files "index.txt" = σ.files "index.txt" := by
  rw [serve_admin_readError σ r e h]
  exact ⟨rfl, rfl, rfl⟩

/-- C3, at a request whose body breaks off, with an empty world. -/
theorem admin_failed_body_read_atomic_witness :
    (io.ReadAll postBroken.Body).2 = some (GoError.other "unexpected EOF") ∧
    (serve adminUpdateHandler emptyWorld postBroken).1.status = 500 ∧
    (serve adminUpdateHandler emptyWorld postBroken).2 = emptyWorld ∧
    (serve adminUpdateHandler emptyWorld postBroken).2.files "index.txt" =
      emptyWorld.files "index.txt" :=
  ⟨rfl, admin_failed_body_read_atomic emptyWorld postBroken (GoError.other "unexpected EOF") rfl⟩

/-- C6: when the body is read in full and written to `index.txt` without
error, `adminUpdateHandler` answers with status 200 and a body that is exactly
`Content successfully updated`, with no further byte. -/
theorem admin_success_response (σ : World) (r : Request)
    (hr : (io.ReadAll r.Body).2 = none)
    (hw : (os.WriteFile σ "index.txt" (io.ReadAll r.Body).1 0o644).1 = none) :
    (serve adminUpdateHandler σ r).1.status = 200 ∧
    (serve adminUpdateHandler σ r).1.body = bytesOf "Content successfully updated" ∧
    (serve adminUpdateHandler σ r).1.body.length = 28 := by
  rw [serve_admin_ok σ r hr hw]
  refine ⟨rfl, rfl, ?_⟩
  show (bytesOf "Content successfully updated").length = 28
  decide

/-- C6, at a request with body `hi` and an empty world. -/
theorem admin_success_response_witness :
    (io.ReadAll postHi.Body).2 = none ∧
    (os.WriteFile emptyWorld "index.txt" (io.ReadAll postHi.Body).1 0o644).1 = none ∧
    (serve adminUpdateHandler emptyWorld postHi).1.status = 200 ∧
    (serve adminUpdateHandler emptyWorld postHi).1.body = bytesOf "Content successfully updated" ∧
    (serve adminUpdateHandler emptyWorld postHi).1.body.length = 28 :=
  ⟨rfl, rfl, admin_success_response emptyWorld postHi rfl rfl⟩

/-- C7: when the body is read in full and the write to `index.txt` fails,
`adminUpdateHandler` answers with status 500 and the plain-text message
`Error writing to file` (followed by a newline), and the confirmation
`Content successfully updated` occurs nowhere in the body; and the status is
500 exactly when the body read failed or the write that followed it failed. -/
theorem admin_write_failure_surfaced (σ : World) (r : Request) :
    (∀ e : GoError, (io.ReadAll r.Body).2 = none →
      (os.WriteFile σ "index.txt" (io.ReadAll r.Body).1 0o644).1 = some e →
        (serve adminUpdateHandler σ r).1.status = 500 ∧
        (serve adminUpdateHandler σ r).1.body = bytesOf "Error writing to file" ++ [10] ∧
        Header.Values (serve adminUpdateHandler σ r).1.header "Content-Type" =
          ["text/plain; charset=utf-8"] ∧
        ¬ (bytesOf "Content successfully updated" <:+: (serve adminUpdateHandler σ r).1.body)) ∧
    ((serve adminUpdateHandler σ r).1.status = 500 ↔
      ((io.ReadAll r.Body).2 ≠ none ∨
        ((io.ReadAll r.Body).2 = none ∧
          (os.WriteFile σ "index.txt" (io.ReadAll r.Body).1 0o644).1 ≠ none))) := by
  constructor
  · intro e hr hw
    rw [serve_admin_writeError σ r e hr hw]
    refine ⟨rfl, rfl, ?_, ?_⟩
    · simp [Header.Values, errorHeaders, canonical_contentType, List.lookup]
    · intro hsub
      have hlen := hsub.length_le
      have h1 : (bytesOf "Content successfully updated").length = 28 := by decide
      have h2 : (bytesOf "Error writing to file" ++ [10]).length = 22 := by decide
      simp only [h1] at hlen
      rw [h2] at hlen
      omega
  · cases hr : (io.ReadAll r.Body).2 with
    | some e =>
      rw [serve_admin_readError σ r e hr]
      simp
    | none =>
      cases hw : (os.WriteFile σ "index.txt" (io.ReadAll r.Body).1 0o644).1 with
      | some e =>
        rw [serve_admin_writeError σ r e hr hw]
        simp
      | none =>
        rw [serve_admin_ok σ r hr hw]
        simp

/-- C7, at a request with body `hi` and a world where `index.txt` cannot be
opened for writing. -/
theorem admin_write_failure_surfaced_witness :
    (io.ReadAll postHi.Body).2 = none ∧
    (os.WriteFile readOnlyWorld "index.txt" (io.ReadAll postHi.Body).1 0o644).1 =
      some GoError.permission ∧
    (serve adminUpdateHandler readOnlyWorld postHi).1.status = 500 ∧
    (serve adminUpdateHandler readOnlyWorld postHi).1.body =
      bytesOf "Error writing to file" ++ [10] ∧
    Header.Values (serve adminUpdateHandler readOnlyWorld postHi).1.header "Content-Type" =
      ["text/plain; charset=utf-8"] ∧
    ¬ (bytesOf "Content successfully updated" <:+:
      (serve adminUpdateHandler readOnlyWorld postHi).1.body) :=
  ⟨rfl, rfl,
    (admin_write_failure_surfaced readOnlyWorld postHi).1 GoError.permission rfl rfl⟩

/-! ## Update, then read -/

/-- C1: from any world, when `adminUpdateHandler` runs on a request whose body
`P` is read in full and the write succeeds, `index.txt` holds exactly `P`
afterwards (whatever it held before), and a run of `handler` that follows, if
its read succeeds, answers with status 200 and body `P`. -/
theorem update_then_read_roundtrip (σ : World) (r1 r2 : Request) (P content : Bytes)
    (hbody : io.ReadAll r1.Body = (P, none))
    (hwrite : (os.WriteFile σ "index.txt" P 0o644).1 = none)
    (hread : os.ReadFile (serve adminUpdateHandler σ r1).2 "index.txt" = Except.ok content) :
    (serve adminUpdateHandler σ r1).2.files "index.txt" = some P ∧
    (serve handler (serve adminUpdateHandler σ r1).2 r2).1.status = 200 ∧
    (serve handler (serve adminUpdateHandler σ r1).2 r2).1.body = P := by
  have hr : (io.ReadAll r1.Body).2 = none := by rw [hbody]
  have hP : (io.ReadAll r1.Body).1 = P := by rw [hbody]
  have hw : (os.WriteFile σ "index.txt" (io.ReadAll r1.Body).1 0o644).1 = none := by
    rw [hP]; exact hwrite
  have hσ : (serve adminUpdateHandler σ r1).2 = σ.store "index.txt" P := by
    rw [serve_admin_ok σ r1 hr hw, hP]
    unfold os.WriteFile at hwrite ⊢
    split at hwrite <;> simp_all
  have hfile : (σ.store "index.txt" P).files "index.txt" = some P := by
    simp [World.store]
  rw [hσ] at hread ⊢
  have hcontent : content = P := by
    unfold os.ReadFile at hread
    rw [hfile] at hread
    split at hread
    · cases hread
    · cases hread
      rfl
  subst hcontent
  rw [serve_handler_readOk _ r2 content hread]
  exact ⟨hfile, rfl, rfl⟩

/-- C1, at a world where `index.txt` holds `old`, updated with body `hi`. -/
theorem update_then_read_roundtrip_witness :
    io.ReadAll postHi.Body = (bytesOf "hi", none) ∧
    (os.WriteFile oldWorld "index.txt" (bytesOf "hi") 0o644).1 = none ∧
    os.ReadFile (serve adminUpdateHandler oldWorld postHi).2 "index.txt" =
      Except.ok (bytesOf "hi") ∧
    (serve adminUpdateHandler oldWorld postHi).2.files "index.txt" = some (bytesOf "hi") ∧
    (serve handler (serve adminUpdateHandler oldWorld postHi).2 getRoot).1.status = 200 ∧
    (serve handler (serve adminUpdateHandler oldWorld postHi).2 getRoot).1.body = bytesOf "hi" :=
  ⟨rfl, rfl, rfl,
    update_then_read_roundtrip oldWorld postHi getRoot (bytesOf "hi") (bytesOf "hi") rfl rfl rfl⟩

/-! ## Routing -/

theorem parse_adminPattern :
    parsePattern "POST /admin/update-text" =
      { method := "POST", segments := ["admin", "update-text"], multi := false } := by
  decide

theorem mux_entries :
    mux.entries =
      [({ method := "GET", segments := [], multi := true }, Registered.handler),
       ({ method := "POST", segments := ["admin", "update-text"], multi := false },
        Registered.adminUpdateHandler)] := by
  decide

theorem cleanPath_rooted (p : String) : rooted (cleanPath p) = true := by
  unfold cleanPath rooted
  simp only
  split <;> split <;> simp

theorem rooted_data (path : String) (h : rooted path = true) :
    ∃ rest, path.data = '/' :: rest := by
  unfold rooted at h
  cases hd : path.data with
  | nil => simp [hd] at h
  | cons c rest =>
    simp [hd] at h
    exact ⟨rest, by rw [h]⟩

theorem matchesPath_root (path : String) :
    Pattern.matchesPath { method := "GET", segments := [], multi := true } path =
      !path.data.isEmpty := by
  simp [Pattern.matchesPath, matchSegments]

theorem matchesPath_admin (path : String) :
    Pattern.matchesPath
      { method := "POST", segments := ["admin", "update-text"], multi := false } path =
      matchesAdminUpdate path := by
  unfold matchesAdminUpdate
  rw [parse_adminPattern]

theorem getLast_dropWhile (p : Char → Bool) (x : Char) (hx : p x = false) :
    ∀ l : List Char, l.getLast? = some x → (l.dropWhile p).getLast? = some x := by
  intro l
  induction l with
  | nil => intro h; simp at h
  | cons c cs ih =>
    intro h
    by_cases hc : p c = true
    · have hcs : cs ≠ [] := by
        intro hnil
        subst hnil
        simp at h
        rw [h] at hc
        rw [hx] at hc
        cases hc
      rw [List.dropWhile_cons_of_pos hc]
      apply ih
      cases cs with
      | nil => exact absurd rfl hcs
      | cons d ds =>
        rw [List.getLast?_cons_cons] at h
        exact h
    · rw [List.dropWhile_cons_of_neg hc]
      exact h

/-- A pattern without trailing slash matches no path that ends in a slash. -/
theorem matchSegments_no_trailing_slash :
    ∀ (segs : List String) (path : List Char), (∀ l ∈ segs, l.data ≠ ['/']) →
      matchSegments segs false path = true → path.getLast? ≠ some '/' := by
  intro segs
  induction segs with
  | nil =>
    intro path _ h
    simp [matchSegments] at h
    subst h
    simp
  | cons l ls ih =>
    intro path hl h hlast
    simp only [matchSegments, Bool.and_eq_true, decide_eq_true_eq] at h
    obtain ⟨⟨_, hseg⟩, hrest⟩ := h
    by_cases hp : path = ['/']
    · subst hp
      simp only [firstSegment, if_true] at hseg
      exact hl l (List.mem_cons_self l ls) hseg.symm
    · simp only [firstSegment, hp, if_false] at hrest
      have hih := ih (path.tail.dropWhile (fun c => c ≠ '/'))
        (fun l' hl' => hl l' (List.mem_cons_of_mem l hl')) hrest
      apply hih
      cases path with
      | nil => simp at hlast
      | cons c cs =>
        cases cs with
        | nil =>
          simp at hlast
          subst hlast
          exact absurd rfl hp
        | cons d ds =>
          rw [List.getLast?_cons_cons] at hlast
          simp only [List.tail_cons]
          exact getLast_dropWhile (fun c => c ≠ '/') '/' (by decide) (d :: ds) hlast

theorem matchesAdminUpdate_append_slash (path : String) :
    matchesAdminUpdate (path ++ "/") = false := by
  cases h : matchesAdminUpdate (path ++ "/") with
  | false => rfl
  | true =>
    exfalso
    unfold matchesAdminUpdate at h
    rw [parse_adminPattern] at h
    unfold Pattern.matchesPath at h
    have hno := matchSegments_no_trailing_slash ["admin", "update-text"] (path ++ "/").data
      (by decide) h
    apply hno
    simp

theorem matchesAdminUpdate_nonempty (path : String) (h : matchesAdminUpdate path = true) :
    path.data ≠ [] := by
  intro hnil
  unfold matchesAdminUpdate at h
  rw [parse_adminPattern] at h
  unfold Pattern.matchesPath at h
  rw [hnil] at h
  simp [matchSegments] at h

theorem matchPath_get (path : String) (h : path.data ≠ []) :
    mux.matchPath "GET" path =
      some ({ method := "GET", segments := [], multi := true }, Registered.handler) := by
  have hne : (!path.data.isEmpty) = true := by
    cases hd : path.data with
    | nil => exact absurd hd h
    | cons c cs => rfl
  unfold ServeMux.matchPath
  rw [mux_entries]
  simp [List.filter, matchesPath_root, hne, moreSpecific]

theorem matchPath_post (path : String) :
    mux.matchPath "POST" path =
      if matchesAdminUpdate path then
        some ({ method := "POST", segments := ["admin", "update-text"], multi := false },
          Registered.adminUpdateHandler)
      else none := by
  unfold ServeMux.matchPath
  rw [mux_entries]
  cases h : matchesAdminUpdate path <;> simp [List.filter, matchesPath_admin, h, moreSpecific]

theorem matchPath_other (method path : String) (hget : method ≠ "GET")
    (hpost : method ≠ "POST") : mux.matchPath method path = none := by
  have hget2 : ¬ "GET" = method := fun h => hget h.symm
  have hpost2 : ¬ "POST" = method := fun h => hpost h.symm
  unfold ServeMux.matchPath
  rw [mux_entries]
  simp [List.filter, hget2, hpost2]

theorem matchMethodAndPath_get (method path : String) (h : path.data ≠ [])
    (hm : method = "GET" ∨ method = "HEAD") :
    mux.matchMethodAndPath method path =
      some ({ method := "GET", segments := [], multi := true }, Registered.handler) := by
  unfold ServeMux.matchMethodAndPath
  rcases hm with hm | hm
  · subst hm
    rw [matchPath_get path h]
  · subst hm
    rw [matchPath_other "HEAD" path (by decide) (by decide), matchPath_get path h]
    simp

theorem matchMethodAndPath_post (path : String) :
    mux.matchMethodAndPath "POST" path =
      if matchesAdminUpdate path then
        some ({ method := "POST", segments := ["admin", "update-text"], multi := false },
          Registered.adminUpdateHandler)
      else none := by
  unfold ServeMux.matchMethodAndPath
  rw [matchPath_post path, matchPath_other "" path (by decide) (by decide)]
  cases h : matchesAdminUpdate path <;> simp

theorem matchMethodAndPath_other (method path : String) (hget : method ≠ "GET")
    (hhead : method ≠ "HEAD") (hpost : method ≠ "POST") :
    mux.matchMethodAndPath method path = none := by
  unfold ServeMux.matchMethodAndPath
  rw [matchPath_other method path hget hpost, matchPath_other "" path (by decide) (by decide)]
  simp [hhead]

theorem matchOrRedirect_get (method path : String) (h : rooted path = true)
    (hm : method = "GET" ∨ method = "HEAD") :
    mux.matchOrRedirect method path =
      (some ({ method := "GET", segments := [], multi := true }, Registered.handler), false) := by
  obtain ⟨rest, hrest⟩ := rooted_data path h
  have h1 : path.data ≠ [] := by rw [hrest]; simp
  have h2 : (path ++ "/").data ≠ [] := by simp [hrest]
  unfold ServeMux.matchOrRedirect
  rw [matchMethodAndPath_get method path h1 hm, matchMethodAndPath_get method (path ++ "/") h2 hm]
  simp [exactMatch, Pattern.size, hrest, List.count_cons]

theorem matchOrRedirect_post (path : String) :
    mux.matchOrRedirect "POST" path = (mux.matchMethodAndPath "POST" path, false) := by
  unfold ServeMux.matchOrRedirect
  rw [matchMethodAndPath_post (path ++ "/"), matchesAdminUpdate_append_slash path]
  simp [exactMatch]

theorem matchOrRedirect_other (method path : String) (hget : method ≠ "GET")
    (hhead : method ≠ "HEAD") (hpost : method ≠ "POST") :
    mux.matchOrRedirect method path = (none, false) := by
  unfold ServeMux.matchOrRedirect
  rw [matchMethodAndPath_other method path hget hhead hpost,
    matchMethodAndPath_other method (path ++ "/") hget hhead hpost]
  simp [exactMatch]

theorem matchingMethods_nonempty (path : String) (h : path.data ≠ []) :
    mux.matchingMethods path = allowedMethods path := by
  have hne : (!path.data.isEmpty) = true := by
    cases hd : path.data with
    | nil => exact absurd hd h
    | cons c cs => rfl
  unfold ServeMux.matchingMethods allowedMethods
  rw [mux_entries]
  cases hp : matchesAdminUpdate path
  · simp only [List.filter, matchesPath_root, hne, matchesPath_admin, hp]
    decide
  · simp only [List.filter, matchesPath_root, hne, matchesPath_admin, hp]
    decide

theorem matchingMethods_empty (path : String) (h : path.data = []) :
    mux.matchingMethods path = [] := by
  have hp : matchesAdminUpdate path = false := by
    cases hm : matchesAdminUpdate path with
    | false => rfl
    | true => exact absurd h (matchesAdminUpdate_nonempty path hm)
  have he : (!path.data.isEmpty) = false := by rw [h]; rfl
  unfold ServeMux.matchingMethods
  rw [mux_entries]
  simp only [List.filter, matchesPath_root, he, matchesPath_admin, hp]
  decide

theorem resolve_none_nonempty (path : String) (h : path.data ≠ []) :
    mux.resolve none path = Dispatch.methodNotAllowed (allowedMethods path) := by
  unfold ServeMux.resolve
  simp only [matchingMethods_nonempty path h]
  unfold allowedMethods
  split <;> simp

theorem canonical_nonempty (path : String) (h : cleanPath path = path) : path.data ≠ [] := by
  obtain ⟨rest, hrest⟩ := rooted_data path (by rw [← h]; exact cleanPath_rooted path)
  rw [hrest]
  simp

/-- Where the mux sends a `GET` or `HEAD` request. -/
theorem findHandler_get (r : Request) (hm : r.method = "GET" ∨ r.method = "HEAD") :
    mux.findHandler r =
      if cleanPath r.path = r.path then Dispatch.registered Registered.handler
      else Dispatch.redirect (cleanPath r.path) := by
  have hconnect : ¬ r.method = "CONNECT" := by
    rcases hm with hm | hm <;> rw [hm] <;> decide
  unfold ServeMux.findHandler
  simp only [hconnect, if_false,
    matchOrRedirect_get r.method (cleanPath r.path) (cleanPath_rooted r.path) hm]
  by_cases hc : cleanPath r.path = r.path
  · simp [hc, ServeMux.resolve]
  · simp [hc]

/-- Where the mux sends a request that is not `GET`, `HEAD` or `CONNECT` and
that the pattern `POST /admin/update-text` does not match. -/
theorem findHandler_unmatched (r : Request) (hget : r.method ≠ "GET")
    (hhead : r.method ≠ "HEAD") (hconnect : r.method ≠ "CONNECT")
    (hpost : ¬ (r.method = "POST" ∧ matchesAdminUpdate r.path = true)) :
    mux.findHandler r =
      if cleanPath r.path = r.path then Dispatch.methodNotAllowed (allowedMethods r.path)
      else Dispatch.redirect (cleanPath r.path) := by
  unfold ServeMux.findHandler
  simp only [hconnect, if_false]
  by_cases hc : cleanPath r.path = r.path
  · have hne := canonical_nonempty r.path hc
    simp only [hc, if_true]
    by_cases hp : r.method = "POST"
    · have hadm : matchesAdminUpdate r.path = false := by
        cases hm : matchesAdminUpdate r.path with
        | false => rfl
        | true => exact absurd ⟨hp, hm⟩ hpost
      rw [hp, matchOrRedirect_post, matchMethodAndPath_post, hadm]
      simp [resolve_none_nonempty r.path hne]
    · rw [matchOrRedirect_other r.method r.path hget hhead hp]
      simp [resolve_none_nonempty r.path hne]
  · by_cases hp : r.method = "POST"
    · rw [hp, matchOrRedirect_post]
      simp [hc]
    · rw [matchOrRedirect_other r.method (cleanPath r.path) hget hhead hp]
      simp [hc]

/-- Where the mux sends a `CONNECT` request. -/
theorem findHandler_connect (r : Request) (hconnect : r.method = "CONNECT") :
    mux.findHandler r =
      if r.path = "" then Dispatch.notFound
      else Dispatch.methodNotAllowed (allowedMethods r.path) := by
  unfold ServeMux.findHandler
  simp only [hconnect, if_true]
  rw [matchOrRedirect_other "CONNECT" r.path (by decide) (by decide) (by decide)]
  by_cases he : r.path = ""
  · have hd : r.path.data = [] := by rw [he]
    simp [he, ServeMux.resolve, matchingMethods_empty "" rfl]
  · have hd : r.path.data ≠ [] := by
      intro hnil
      apply he
      cases hr : r.path with
      | mk cs =>
        rw [hr] at hnil
        simp at hnil
        rw [hnil]
    simp [he, resolve_none_nonempty r.path hd]

theorem unescapeFrom_plain : ∀ s : List Char, '%' ∉ s →
    unescapeFrom EscapeState.plain s = some s := by
  intro s
  induction s with
  | nil => intro _; rfl
  | cons c cs ih =>
    intro h
    have hc : ¬ c = '%' := fun e => h (by rw [e]; exact List.mem_cons_self _ _)
    have hcs : '%' ∉ cs := fun e => h (List.mem_cons_of_mem _ e)
    simp [unescapeFrom, hc, ih hcs]

theorem pathUnescape_plain (s : List Char) (h : '%' ∉ s) : pathUnescape s = s := by
  simp [pathUnescape, unescapeFrom_plain s h]

theorem dropWhile_head (p : Char → Bool) :
    ∀ (l : List Char) (c : Char) (cs : List Char), l.dropWhile p = c :: cs → p c = false := by
  intro l
  induction l with
  | nil => intro c cs h; simp at h
  | cons d ds ih =>
    intro c cs h
    by_cases hd : p d = true
    · rw [List.dropWhile_cons_of_pos hd] at h
      exact ih c cs h
    · rw [List.dropWhile_cons_of_neg hd] at h
      cases h
      simpa using hd

/-- Among the rooted paths without percent sign, the pattern
`/admin/update-text` matches that path only. -/
theorem matchesAdminUpdate_plain (path : String) (hroot : rooted path = true)
    (hplain : '%' ∉ path.data) :
    matchesAdminUpdate path = true ↔ path = "/admin/update-text" := by
  constructor
  · intro h
    obtain ⟨t, ht⟩ := rooted_data path hroot
    unfold matchesAdminUpdate at h
    rw [parse_adminPattern] at h
    unfold Pattern.matchesPath at h
    rw [ht] at h hplain
    have hplain_t : '%' ∉ t := fun e => hplain (List.mem_cons_of_mem _ e)
    simp only [matchSegments, Bool.and_eq_true, decide_eq_true_eq] at h
    obtain ⟨⟨_, hseg1⟩, ⟨_, hseg2⟩, hend⟩ := h
    have ht_ne : ¬ ('/' :: t) = ['/'] := by
      intro e
      rw [e] at hseg1
      simp only [firstSegment, if_true] at hseg1
      exact absurd hseg1 (by decide)
    simp only [firstSegment, ht_ne, if_false, List.tail_cons] at hseg1 hseg2 hend
    have htake_plain : '%' ∉ t.takeWhile (fun c => c ≠ '/') :=
      fun e => hplain_t ((List.takeWhile_sublist _).subset e)
    rw [pathUnescape_plain _ htake_plain] at hseg1
    have hsplit := List.takeWhile_append_dropWhile (fun c => decide (c ≠ '/')) t
    generalize hrest : t.dropWhile (fun c => decide (c ≠ '/')) = rest at hseg2 hend hsplit
    cases rest with
    | nil =>
      simp only [firstSegment, List.tail_nil, List.takeWhile_nil] at hseg2
      exact absurd hseg2 (by decide)
    | cons c t2 =>
      have hc : c = '/' := by
        have := dropWhile_head _ t c t2 hrest
        simpa using this
      subst hc
      have ht2_ne : ¬ ('/' :: t2) = ['/'] := by
        intro e
        rw [e] at hseg2
        simp only [firstSegment, if_true] at hseg2
        exact absurd hseg2 (by decide)
      simp only [firstSegment, ht2_ne, if_false, List.tail_cons] at hseg2 hend
      have hplain_t2 : '%' ∉ t2 := by
        intro e
        apply hplain_t
        rw [← hsplit]
        exact List.mem_append_right _ (List.mem_cons_of_mem _ e)
      have htake2_plain : '%' ∉ t2.takeWhile (fun c => c ≠ '/') :=
        fun e => hplain_t2 ((List.takeWhile_sublist _).subset e)
      rw [pathUnescape_plain _ htake2_plain] at hseg2
      have hsplit2 := List.takeWhile_append_dropWhile (fun c => decide (c ≠ '/')) t2
      have hend2 : t2.dropWhile (fun c => decide (c ≠ '/')) = [] := by
        simpa using hend
      rw [hend2, List.append_nil, hseg2] at hsplit2
      rw [hseg1, ← hsplit2] at hsplit
      cases hp : path with
      | mk cs =>
        rw [hp] at ht
        simp only at ht
        rw [ht, ← hsplit]
        rfl
  · intro h
    rw [h]
    decide

theorem canonical_allow : CanonicalMIMEHeaderKey "Allow" = "Allow" := by decide

theorem canonical_location : CanonicalMIMEHeaderKey "Location" = "Location" := by decide

theorem serve_methodNotAllowed (allow : List String) (σ : World) (r : Request) :
    serve (Dispatch.methodNotAllowed allow).run σ r =
      ({ status := 405,
         header := Header.wire
           [("X-Content-Type-Options", ["nosniff"]),
            ("Content-Type", ["text/plain; charset=utf-8"]),
            ("Allow", [", ".intercalate allow])],
         body := bytesOf "Method Not Allowed" ++ [10] }, σ) := by
  simp [serve, Dispatch.run, http.Error, fmt.Fprintln, ResponseWriter.Write,
    ResponseWriter.WriteHeader, ResponseWriter.SetHeader, ResponseWriter.DelHeader,
    ResponseWriter.fresh, ResponseWriter.finish, http.StatusMethodNotAllowed, Header.Set,
    Header.Del, canonical_allow, canonical_contentType, canonical_contentLength,
    canonical_nosniff]

theorem serve_methodNotAllowed_allow (path : String) (σ : World) (r : Request) :
    Header.Values (serve (Dispatch.methodNotAllowed (allowedMethods path)).run σ r).1.header
      "Allow" = [allowValue path] := by
  rw [serve_methodNotAllowed]
  have h1 : Header.Values (Header.wire
      [("X-Content-Type-Options", ["nosniff"]), ("Content-Type", ["text/plain; charset=utf-8"]),
        ("Allow", [", ".intercalate ["GET", "HEAD"]])]) "Allow" = ["GET, HEAD"] := by decide
  have h2 : Header.Values (Header.wire
      [("X-Content-Type-Options", ["nosniff"]), ("Content-Type", ["text/plain; charset=utf-8"]),
        ("Allow", [", ".intercalate ["GET", "HEAD", "POST"]])]) "Allow" =
      ["GET, HEAD, POST"] := by decide
  unfold allowedMethods allowValue
  cases matchesAdminUpdate path
  · exact h1
  · exact h2

theorem serve_notFound_status (σ : World) (r : Request) :
    (serve Dispatch.notFound.run σ r).1.status = 404 := by
  simp [serve, Dispatch.run, http.Error, fmt.Fprintln, ResponseWriter.Write,
    ResponseWriter.WriteHeader, ResponseWriter.SetHeader, ResponseWriter.DelHeader,
    ResponseWriter.fresh, ResponseWriter.finish, http.StatusNotFound]

/-- C2, against the claim as stated: `GET /nonexistent` is neither `GET /` nor
`POST /admin/update-text`, yet the mux dispatches it to `handler` and the
response has status 200, not 404.  So it is not the case that every request
outside the two pairs goes to no registered handler and gets 404. -/
theorem undefined_route_not_found_fails :
    mux.findHandler getNonexistent = Dispatch.registered Registered.handler ∧
    (mux.ServeHTTP emptyWorld getNonexistent).1.status = 200 ∧
    ¬ (∀ r : Request, ¬ (r.method = "GET" ∧ r.path = "/") →
        ¬ (r.method = "POST" ∧ r.path = "/admin/update-text") →
        (∀ h, mux.findHandler r ≠ Dispatch.registered h) ∧
        ∀ σ, (mux.ServeHTTP σ r).1.status = 404) := by
  have hfind : mux.findHandler getNonexistent = Dispatch.registered Registered.handler := by
    decide
  have hstatus : (mux.ServeHTTP emptyWorld getNonexistent).1.status = 200 := by
    unfold ServeMux.ServeHTTP
    rw [hfind]
    show (serve handler emptyWorld getNonexistent).1.status = 200
    rw [serve_handler_readError emptyWorld getNonexistent GoError.notExist rfl]
  refine ⟨hfind, hstatus, ?_⟩
  intro hall
  have h := (hall getNonexistent (by decide) (by decide)).1 Registered.handler
  exact h hfind

/-- C2, amended.  The pattern `GET /` is a subtree pattern: a `GET` or `HEAD`
request is dispatched to `handler` whatever its path, once the path is
canonical (the mux redirects to the canonical path otherwise).  A request whose
method is neither `GET` nor `HEAD` and that is not a `POST` matched by
`/admin/update-text` is dispatched to neither `handler` nor
`adminUpdateHandler`, for every path.  Its response is the method-not-allowed
reply, status 405 with an `Allow` header that names `GET, HEAD` (and `POST` when
the path is the admin path), whenever the path is canonical, and for a `CONNECT`
request whenever the path is not empty; it is the redirect of the mux to the
canonical path when the path is not canonical and the method is not `CONNECT`;
it is the not-found reply, status 404, for a `CONNECT` request with an empty
path, the one case left. -/
theorem routing_outside_registered_routes (r : Request) :
    ((r.method = "GET" ∨ r.method = "HEAD") →
      mux.findHandler r =
        if cleanPath r.path = r.path then Dispatch.registered Registered.handler
        else Dispatch.redirect (cleanPath r.path)) ∧
    (r.method ≠ "GET" → r.method ≠ "HEAD" →
      ¬ (r.method = "POST" ∧ matchesAdminUpdate r.path = true) →
      (∀ h, mux.findHandler r ≠ Dispatch.registered h) ∧
      ((cleanPath r.path = r.path ∨ (r.method = "CONNECT" ∧ r.path ≠ "")) →
        mux.findHandler r = Dispatch.methodNotAllowed (allowedMethods r.path) ∧
        ∀ σ, (mux.ServeHTTP σ r).1.status = 405 ∧
          Header.Values (mux.ServeHTTP σ r).1.header "Allow" = [allowValue r.path] ∧
          (mux.ServeHTTP σ r).1.body = bytesOf "Method Not Allowed" ++ [10] ∧
          (mux.ServeHTTP σ r).2 = σ) ∧
      (r.method ≠ "CONNECT" → cleanPath r.path ≠ r.path →
        mux.findHandler r = Dispatch.redirect (cleanPath r.path)) ∧
      (r.method = "CONNECT" → r.path = "" →
        mux.findHandler r = Dispatch.notFound ∧
        ∀ σ, (mux.ServeHTTP σ r).1.status = 404)) := by
  refine ⟨findHandler_get r, ?_⟩
  intro hget hhead hpost
  have h405 : (cleanPath r.path = r.path ∨ (r.method = "CONNECT" ∧ r.path ≠ "")) →
      mux.findHandler r = Dispatch.methodNotAllowed (allowedMethods r.path) := by
    intro hcase
    by_cases hconnect : r.method = "CONNECT"
    · have hne : r.path ≠ "" := by
        rcases hcase with hc | hc
        · intro he
          exact canonical_nonempty r.path hc (by rw [he])
        · exact hc.2
      rw [findHandler_connect r hconnect]
      simp [hne]
    · rcases hcase with hc | hc
      · rw [findHandler_unmatched r hget hhead hconnect hpost]
        simp [hc]
      · exact absurd hc.1 hconnect
  have h301 : r.method ≠ "CONNECT" → cleanPath r.path ≠ r.path →
      mux.findHandler r = Dispatch.redirect (cleanPath r.path) := by
    intro hconnect hc
    rw [findHandler_unmatched r hget hhead hconnect hpost]
    simp [hc]
  have h404 : r.method = "CONNECT" → r.path = "" → mux.findHandler r = Dispatch.notFound := by
    intro hconnect he
    rw [findHandler_connect r hconnect]
    simp [he]
  refine ⟨?_, ?_, ?_, ?_⟩
  · intro h hEq
    by_cases hconnect : r.method = "CONNECT"
    · rw [findHandler_connect r hconnect] at hEq
      split at hEq <;> cases hEq
    · rw [findHandler_unmatched r hget hhead hconnect hpost] at hEq
      split at hEq <;> cases hEq
  · intro hcase
    refine ⟨h405 hcase, ?_⟩
    intro σ
    unfold ServeMux.ServeHTTP
    rw [h405 hcase]
    refine ⟨?_, serve_methodNotAllowed_allow r.path σ r, ?_, ?_⟩ <;>
      rw [serve_methodNotAllowed]
  · exact h301
  · intro hconnect he
    refine ⟨h404 hconnect he, ?_⟩
    intro σ
    unfold ServeMux.ServeHTTP
    rw [h404 hconnect he]
    exact serve_notFound_status σ r

/-- C2 amended, at `GET /nonexistent` and `DELETE /nonexistent`: the first goes
to `handler`, the second gets 405 with `Allow: GET, HEAD`. -/
theorem routing_outside_registered_routes_witness :
    matchesAdminUpdate deleteNonexistent.path = false ∧
    cleanPath deleteNonexistent.path = deleteNonexistent.path ∧
    mux.findHandler getNonexistent = Dispatch.registered Registered.handler ∧
    mux.findHandler deleteNonexistent = Dispatch.methodNotAllowed ["GET", "HEAD"] ∧
    (mux.ServeHTTP emptyWorld deleteNonexistent).1.status = 405 ∧
    Header.Values (mux.ServeHTTP emptyWorld deleteNonexistent).1.header "Allow" =
      ["GET, HEAD"] :=
  ⟨by decide, by decide,
    (routing_outside_registered_routes getNonexistent).1 (Or.inl rfl),
    (((routing_outside_registered_routes deleteNonexistent).2
      (by decide) (by decide) (by decide)).2.1 (Or.inl (by decide))).1,
    ((((routing_outside_registered_routes deleteNonexistent).2
      (by decide) (by decide) (by decide)).2.1 (Or.inl (by decide))).2 emptyWorld).1,
    ((((routing_outside_registered_routes deleteNonexistent).2
      (by decide) (by decide) (by decide)).2.1 (Or.inl (by decide))).2 emptyWorld).2.1⟩

end ContainerPool
